import Mathlib

/-!
Verification of the semantic-retrieval core of the credit-memo repository.

The Python sources embedded here are:
* `backend/rag_chunking.py`   — `TextChunker.chunk_text`
* `backend/rag_vector_db.py`  — `VectorDatabase.insert_chunks`, `semantic_search`
* `backend/rag_retrieval.py`  — `RAGRetriever.retrieve_context`,
  `format_context_for_llm`, `retrieve_similar_memos`

Python strings are modelled as `List Char` where character-level algorithms
matter (the chunker) and as `String` elsewhere; Python floats are modelled as
`ℚ`; nullable values as `Option`; the PostgreSQL table as a `List Row` in
physical (insertion) order.  External collaborators (the pgvector `<=>`
operator and the sentence-transformer encoder) are passed in as explicit
function parameters: they live outside this repository.
-/

namespace CreditMemo

/-! ## Chunker (`rag_chunking.py`, `TextChunker.chunk_text`)

`chunk_text` splits on the two-character separator `". "`, restores a
trailing period on every piece that does not already end with one, and
greedily packs the pieces into chunks of bounded length, `strip`-ping each
flushed buffer. -/

/-- Whitespace as removed by Python's `str.strip()` (the characters that can
actually occur here: space, newline, tab, carriage return). -/
def isWS (c : Char) : Bool :=
  c == ' ' || c == '\n' || c == '\t' || c == '\r'

/-- Python `s.strip()`: drop leading and trailing whitespace. -/
def stripWS (l : List Char) : List Char :=
  ((l.dropWhile isWS).reverse.dropWhile isWS).reverse

/-- Erase every whitespace character; used to compare texts "ignoring added
whitespace". -/
def removeWS (l : List Char) : List Char :=
  l.filter (fun c => !(isWS c))

/-- Python `if not sentence.endswith('.'): sentence += '.'` (line 38-39 of
`rag_chunking.py`). -/
def addPeriod (s : List Char) : List Char :=
  if s.getLast? = some '.' then s else s ++ ['.']

/-- Prepend a character to the first piece of a split (helper for
`splitDotSpace`); the empty-list case never arises because the split of any
text is non-empty. -/
def consHead (c : Char) : List (List Char) → List (List Char)
  | [] => [[c]]
  | s :: ss => (c :: s) :: ss

/-- Python `text.split('. ')`: cut at every (leftmost, non-overlapping)
occurrence of period-then-space. -/
def splitDotSpace : List Char → List (List Char)
  | [] => [[]]
  | '.' :: ' ' :: rest => [] :: splitDotSpace rest
  | c :: rest => consHead c (splitDotSpace rest)

/-- The sentence-accumulation loop of `chunk_text` (lines 36-52 of
`rag_chunking.py`): `chunks` and `current` are the Python locals of the same
names. -/
def chunkLoop (maxLength : Nat) : List (List Char) → List Char → List (List Char) →
    List (List Char)
  | chunks, current, [] =>
      if current.isEmpty then chunks else chunks ++ [stripWS current]
  | chunks, current, s :: rest =>
      let s' := addPeriod s
      if current.length + s'.length < maxLength then
        chunkLoop maxLength chunks (current ++ s' ++ [' ']) rest
      else
        chunkLoop maxLength
          (if current.isEmpty then chunks else chunks ++ [stripWS current])
          (s' ++ [' ']) rest

/-- Embedding of `TextChunker.chunk_text` (lines 28-54 of `rag_chunking.py`). -/
def chunk_text (text : List Char) (max_length : Nat) : List (List Char) :=
  if text.isEmpty then []
  else if text.length ≤ max_length then [text]
  else chunkLoop max_length [] [] (splitDotSpace text)

/-! ## Data model (`rag_vector_db.py`, table `memo_kb_chunks`)

A persisted row of `memo_kb_chunks`.  The `SERIAL` surrogate key is not
modelled; physical row order is the list order. -/

structure Row where
  chunk_id : String
  original_id : String
  chunk_index : Int
  title : Option String
  borrower : Option String
  loan_type : Option String
  chunk_text : String
  chunk_length : Int
  score : Int
  recommendation : Option String
  embedding : List ℚ
  created_at : Nat
deriving DecidableEq

/-- The tuple assembled per DataFrame row in `insert_chunks` (lines 202-214 of
`rag_vector_db.py`): everything of a `Row` except the database-assigned
`created_at`. -/
structure Record where
  chunk_id : String
  original_id : String
  chunk_index : Int
  title : Option String
  borrower : Option String
  loan_type : Option String
  chunk_text : String
  chunk_length : Int
  score : Int
  recommendation : Option String
  embedding : List ℚ
deriving DecidableEq

/-- One row of the `semantic_search` result set (lines 291-325 of
`rag_vector_db.py`). -/
structure SearchResult where
  chunk_id : String
  original_id : String
  title : Option String
  borrower : Option String
  loan_type : Option String
  chunk_text : String
  score : Int
  recommendation : Option String
  similarity : ℚ
deriving DecidableEq

/-! ## VectorDatabase (`rag_vector_db.py`) -/

/-- Dot product of two vectors, pointwise over the common length. -/
def dotQ (a b : List ℚ) : ℚ :=
  (List.zipWith (fun x y => x * y) a b).sum

/-- pgvector's cosine distance `a <=> b` specialised to unit-norm vectors,
where it equals `1 − a·b`.  Concrete instantiations below only use unit
vectors, so this is exact there; the general operator lives inside pgvector,
outside this repository, and is otherwise passed around abstractly. -/
def cosineDistUnit (a b : List ℚ) : ℚ :=
  1 - dotQ a b

/-- Bool test: does `pat` occur inside `hay` (contiguously)? -/
def listContains (hay pat : List Char) : Bool :=
  match hay with
  | [] => pat.isEmpty
  | _ :: t => pat.isPrefixOf hay || listContains t pat

/-- PostgreSQL `hay ILIKE '%pat%'`: case-insensitive substring match. -/
def ilikeContains (hay pat : String) : Bool :=
  listContains (hay.toList.map Char.toLower) (pat.toList.map Char.toLower)

/-- The optional `WHERE` clauses of `semantic_search` (lines 275-288 of
`rag_vector_db.py`): equality on `score`, `ILIKE` substring on `borrower`.
A `NULL` borrower never satisfies an `ILIKE` predicate. -/
def matchesFilters (score_filter : Option Int) (borrower_filter : Option String)
    (r : Row) : Bool :=
  (match score_filter with
   | none => true
   | some s => r.score == s)
  &&
  (match borrower_filter with
   | none => true
   | some b =>
     match r.borrower with
     | none => false
     | some br => ilikeContains br b)

/-- The `ORDER BY embedding <=> query` clause: comparison of two rows by distance to the
query vector under the metric `dist`. -/
def rowLE (dist : List ℚ → List ℚ → ℚ) (q : List ℚ) (a b : Row) : Prop :=
  dist a.embedding q ≤ dist b.embedding q

instance (dist : List ℚ → List ℚ → ℚ) (q : List ℚ) : DecidableRel (rowLE dist q) :=
  fun a b => inferInstanceAs (Decidable (dist a.embedding q ≤ dist b.embedding q))

/-- The `SELECT` list of `semantic_search`: all metadata columns plus the
annotated similarity `1 - (embedding <=> query)`. -/
def toSearchResult (dist : List ℚ → List ℚ → ℚ) (q : List ℚ) (r : Row) : SearchResult :=
  { chunk_id := r.chunk_id
    original_id := r.original_id
    title := r.title
    borrower := r.borrower
    loan_type := r.loan_type
    chunk_text := r.chunk_text
    score := r.score
    recommendation := r.recommendation
    similarity := 1 - dist r.embedding q }

/-- The body of the `try` block of `semantic_search` (lines 271-328 of
`rag_vector_db.py`): filter, order by distance ascending (a stable sort over
physical row order — the SQL has no further `ORDER BY` key), truncate, and
annotate.  Comparing vectors of different dimensions makes pgvector raise,
which surfaces as a `psycopg2.Error`; that is the `Except.error` case, and it
fires exactly when some retained row is actually compared to the query. -/
def semantic_search_exec (dist : List ℚ → List ℚ → ℚ) (rows : List Row)
    (query_embedding : List ℚ) (limit : Nat) (score_filter : Option Int)
    (borrower_filter : Option String) : Except String (List SearchResult) :=
  let filtered := rows.filter (matchesFilters score_filter borrower_filter)
  if filtered.any (fun r => r.embedding.length != query_embedding.length) then
    Except.error "different vector dimensions"
  else
    Except.ok
      ((((filtered.insertionSort (rowLE dist query_embedding)).take limit).map
        (toSearchResult dist query_embedding)))

/-- Embedding of `VectorDatabase.semantic_search` (lines 248-332 of `rag_vector_db.py`):
returns `[]` when not connected; any `psycopg2.Error` raised inside the
`try` block is caught, logged and converted to `[]`. -/
def semantic_search (dist : List ℚ → List ℚ → ℚ) (conn : Bool) (rows : List Row)
    (query_embedding : List ℚ) (limit : Nat) (score_filter : Option Int)
    (borrower_filter : Option String) : List SearchResult :=
  if conn then
    match semantic_search_exec dist rows query_embedding limit score_filter
        borrower_filter with
    | Except.ok res => res
    | Except.error _ => []
  else []

/-- A freshly inserted row: the record's columns plus `created_at` from the
database clock (`DEFAULT CURRENT_TIMESTAMP`). -/
def recordToRow (now : Nat) (r : Record) : Row :=
  { chunk_id := r.chunk_id
    original_id := r.original_id
    chunk_index := r.chunk_index
    title := r.title
    borrower := r.borrower
    loan_type := r.loan_type
    chunk_text := r.chunk_text
    chunk_length := r.chunk_length
    score := r.score
    recommendation := r.recommendation
    embedding := r.embedding
    created_at := now }

/-- One `INSERT ... ON CONFLICT (chunk_id) DO UPDATE SET chunk_text = ...,
embedding = ...` (lines 218-226 of `rag_vector_db.py`): on conflict only the
`chunk_text` and `embedding` columns of the existing row change. -/
def upsertRecord (now : Nat) (rows : List Row) (r : Record) : List Row :=
  if rows.any (fun row => row.chunk_id == r.chunk_id) then
    rows.map (fun row =>
      if row.chunk_id == r.chunk_id then
        { row with chunk_text := r.chunk_text, embedding := r.embedding }
      else row)
  else rows ++ [recordToRow now r]

/-- One `execute_values` call over one batch: the records of the batch are upserted in
order (the ingestion pipeline never puts two records with the same `chunk_id`
in one batch). -/
def applyBatch (now : Nat) (rows : List Row) (batch : List Record) : List Row :=
  batch.foldl (upsertRecord now) rows

/-- Slice a record list into consecutive batches, accumulating the current
batch in reverse (`records[i:i + batch_size]` of the Python loop, for
`batch_size > 0`). -/
def toBatchesGo (batch_size : Nat) : List Record → List Record → List (List Record)
  | [], acc => if acc.isEmpty then [] else [acc.reverse]
  | x :: xs, acc =>
    if (x :: acc).length = batch_size then
      (x :: acc).reverse :: toBatchesGo batch_size xs []
    else
      toBatchesGo batch_size xs (x :: acc)

def toBatches (batch_size : Nat) (records : List Record) : List (List Record) :=
  toBatchesGo batch_size records []

/-- The batch loop of `insert_chunks` (lines 228-235 of `rag_vector_db.py`),
inside one open transaction: `pending` is the uncommitted table state and
`total` the running `total_inserted` counter.  `fails i = true` means the
`execute_values` call for batch `i` raises a `psycopg2.Error`; the loop then
aborts (`Except`-style `none`), which the caller turns into a rollback. -/
def insertLoop (now : Nat) (fails : Nat → Bool) :
    Nat → Nat → List Row → List (List Record) → Option (List Row × Nat)
  | _, total, pending, [] => some (pending, total)
  | i, total, pending, b :: bs =>
    if fails i then none
    else insertLoop now fails (i + 1) (total + b.length) (applyBatch now pending b) bs

/-- Embedding of `VectorDatabase.insert_chunks` (lines 171-246 of `rag_vector_db.py`).
Returns the new committed table state together with the returned count:
`(rows, 0)` when not connected; on any batch failure the single transaction
is rolled back (`self.conn.rollback()`) and `0` is returned; otherwise
`self.conn.commit()` persists every batch and `total_inserted` is returned. -/
def insert_chunks (conn : Bool) (rows : List Row) (records : List Record)
    (batch_size : Nat) (fails : Nat → Bool) (now : Nat) : List Row × Nat :=
  if conn then
    match insertLoop now fails 0 0 rows (toBatches batch_size records) with
    | none => (rows, 0)
    | some (pending, total) => (pending, total)
  else (rows, 0)

/-! ## Retriever (`rag_retrieval.py`, `RAGRetriever`) -/

/-- The ratio values read by `retrieve_similar_memos` via `ratios.get(...)`:
`none` models an absent key (Python `None`). -/
structure Ratios where
  dscr : Option ℚ
  current_ratio : Option ℚ
  leverage_ratio : Option ℚ

/-- Python truthiness of an optional float: `None` and `0.0` are falsy. -/
def truthyQ : Option ℚ → Bool
  | none => false
  | some x => decide (x ≠ 0)

/-- The DSCR phrase appended by lines 191-198 of `rag_retrieval.py` (given
that the `if dscr:` truthiness test passed). -/
def dscrBucket (d : ℚ) : String :=
  if 3/2 ≤ d then "strong debt service coverage"
  else if 5/4 ≤ d then "adequate debt service coverage"
  else "weak debt service coverage"

/-- The current-ratio phrase of lines 200-207. -/
def currentRatioBucket (c : ℚ) : String :=
  if 2 ≤ c then "strong liquidity"
  else if 3/2 ≤ c then "adequate liquidity"
  else "liquidity concerns"

/-- The leverage phrase of lines 209-216. -/
def leverageBucket (l : ℚ) : String :=
  if l ≤ 3/10 then "low leverage"
  else if l ≤ 1/2 then "moderate leverage"
  else "high leverage"

/-- What each `if <ratio>:` block contributes to `query_parts`: nothing when
the value is absent or falsy, otherwise its bucket phrase. -/
def ratioPhrase (bucket : ℚ → String) (v : Option ℚ) : List String :=
  match v with
  | none => []
  | some x => if x = 0 then [] else [bucket x]

/-- The list `query_parts` as built by `retrieve_similar_memos` (lines 183-219 of
`rag_retrieval.py`): the borrower industry (default `"business"`) followed by
the present-and-truthy ratio phrases, in source order. -/
def buildQueryParts (industry : Option String) (r : Ratios) : List String :=
  [industry.getD "business"]
    ++ ratioPhrase dscrBucket r.dscr
    ++ ratioPhrase currentRatioBucket r.current_ratio
    ++ ratioPhrase leverageBucket r.leverage_ratio

/-- Python `sep.join(parts)`. -/
def joinWith (sep : String) : List String → String
  | [] => ""
  | [p] => p
  | p :: ps => p ++ sep ++ joinWith sep ps

/-- Embedding of `RAGRetriever.embed_query` (lines 63-77 of `rag_retrieval.py`): the empty
query maps to the zero vector, any other text goes to the (external) encoder
`enc` of output dimension `dim`. -/
def embed_query (enc : String → List ℚ) (dim : Nat) (query : String) : List ℚ :=
  if query = "" then List.replicate dim 0 else enc query

/-- Embedding of `RAGRetriever.retrieve_context` (lines 79-122 of `rag_retrieval.py`):
`[]` when the retriever is not connected; otherwise oversample `limit * 2`
candidates from `semantic_search`, keep those with similarity at least the
threshold, and truncate to `limit`. -/
def retrieve_context (dist : List ℚ → List ℚ → ℚ) (enc : String → List ℚ) (dim : Nat)
    (conn : Bool) (rows : List Row) (query : String) (limit : Nat)
    (score_filter : Option Int) (borrower_filter : Option String)
    (similarity_threshold : ℚ) : List SearchResult :=
  if conn then
    let query_embedding := embed_query enc dim query
    let results := semantic_search dist conn rows query_embedding (limit * 2)
      score_filter borrower_filter
    (results.filter (fun r => decide (similarity_threshold ≤ r.similarity))).take limit
  else []

/-- Render an optional string the way a Python f-string does (`None` prints
as `"None"`). -/
def optStr : Option String → String
  | none => "None"
  | some s => s

/-- Python truthiness of an optional string (`None` and `""` are falsy). -/
def truthyS : Option String → Bool
  | none => false
  | some s => !(s == "")

/-- Three zero-padded decimal digits. -/
def padZeros3 (n : Nat) : String :=
  (if n < 10 then "00" else if n < 100 then "0" else "") ++ toString n

/-- Floor of a rational, computably (`den` is always positive). -/
def ratFloor (q : ℚ) : Int :=
  Int.fdiv q.num q.den

/-- Python `f"{x:.3f}"`: fixed-point rendering with three decimals.  Rounding
of exact half-thousandths differs from Python's round-half-even; no claim
inspects those digits. -/
def fmt3 (q : ℚ) : String :=
  let m : Int := ratFloor (q * 1000 + 1/2)
  (if m < 0 then "-" else "") ++ toString (m.natAbs / 1000) ++ "." ++ padZeros3 (m.natAbs % 1000)

/-- The metadata block of one example (lines 147-153 of `rag_retrieval.py`). -/
def metaBlock (c : SearchResult) : String :=
  "Memo ID: " ++ c.original_id ++ "\n"
    ++ "Title: " ++ optStr c.title ++ "\n"
    ++ "Borrower Type: " ++ optStr c.borrower ++ "\n"
    ++ "Loan Type: " ++ optStr c.loan_type ++ "\n"
    ++ "Risk Score: " ++ toString c.score ++ "/5\n"
    ++ "Similarity: " ++ fmt3 c.similarity ++ "\n\n"

/-- One numbered example block (lines 145-160 of `rag_retrieval.py`). -/
def formatPart (include_metadata : Bool) (i : Nat) (c : SearchResult) : String :=
  ("--- Example " ++ toString i ++ " ---\n")
    ++ (if include_metadata then metaBlock c else "")
    ++ ("Risk Analysis:\n" ++ c.chunk_text ++ "\n")
    ++ (if include_metadata && truthyS c.recommendation then
          "\nRecommendation: " ++ optStr c.recommendation ++ "\n"
        else "")

/-- Python `enumerate(retrieved_chunks, 1)`: number the blocks starting at `i`. -/
def formatParts (include_metadata : Bool) : Nat → List SearchResult → List String
  | _, [] => []
  | i, c :: cs => formatPart include_metadata i c :: formatParts include_metadata (i + 1) cs

/-- Embedding of `RAGRetriever.format_context_for_llm` (lines 124-162 of
`rag_retrieval.py`). -/
def format_context_for_llm (retrieved_chunks : List SearchResult)
    (include_metadata : Bool) : String :=
  if retrieved_chunks.isEmpty then "No relevant examples found in knowledge base."
  else joinWith "\n" (formatParts include_metadata 1 retrieved_chunks)

set_option linter.unusedVariables false in
/-- Embedding of `RAGRetriever.retrieve_similar_memos` (lines 164-235 of
`rag_retrieval.py`): build the query from the financial profile, retrieve
with threshold `0.4`, format.  `financial_data` is accepted and never used,
exactly as in the source. -/
def retrieve_similar_memos (dist : List ℚ → List ℚ → ℚ) (enc : String → List ℚ)
    (dim : Nat) (conn : Bool) (rows : List Row)
    (financial_data : List (String × String)) (ratios : Ratios)
    (industry : Option String) (limit : Nat) : String :=
  let query := joinWith " " (buildQueryParts industry ratios)
  let results := retrieve_context dist enc dim conn rows query limit none none (2/5)
  format_context_for_llm results true

/-! ## Auxiliary definitions used by the statements below -/

/-- The columns of a row other than `chunk_text`, `chunk_length` and
`embedding` — the ones the `ON CONFLICT` clause leaves untouched. -/
def frozenCols (r : Row) :
    String × String × Int × Option String × Option String × Option String ×
      Int × Option String × Nat :=
  (r.chunk_id, r.original_id, r.chunk_index, r.title, r.borrower, r.loan_type,
   r.score, r.recommendation, r.created_at)

/-- Strict lexicographic comparison of character lists — the ascending order
PostgreSQL would use on a `VARCHAR` column (for the plain ASCII ids that occur
here). -/
def charListLtB : List Char → List Char → Bool
  | [], [] => false
  | [], _ :: _ => true
  | _ :: _, [] => false
  | a :: as, b :: bs => if a < b then true else if b < a then false else charListLtB as bs

def strLtB (a b : String) : Bool :=
  charListLtB a.toList b.toList

/-- The three DSCR phrases of `retrieve_similar_memos`. -/
def dscrPhraseList : List String :=
  ["strong debt service coverage", "adequate debt service coverage",
   "weak debt service coverage"]

/-- The three current-ratio phrases. -/
def currentPhraseList : List String :=
  ["strong liquidity", "adequate liquidity", "liquidity concerns"]

/-- The three leverage phrases. -/
def leveragePhraseList : List String :=
  ["low leverage", "moderate leverage", "high leverage"]

/-- The ratio-driven part of the query: everything after the industry part. -/
def queryTail (r : Ratios) : List String :=
  ratioPhrase dscrBucket r.dscr
    ++ ratioPhrase currentRatioBucket r.current_ratio
    ++ ratioPhrase leverageBucket r.leverage_ratio

/-! ## Concrete sample data for witnesses and counterexamples -/

def exRec1 : Record :=
  ⟨"M1-1", "M1", 1, some "Title one", some "Retail", some "Term",
   "text one", 8, 3, none, [1, 0]⟩

def exRec2 : Record :=
  ⟨"M2-1", "M2", 1, some "Title two", some "Office", some "Term",
   "text two", 8, 4, some "Approve", [0, 1]⟩

/-- A re-ingestion of `exRec1` with corrected text and embedding. -/
def exRec1b : Record :=
  { exRec1 with chunk_text := "updated text", embedding := [0, 1] }

/-- Two stored rows with identical embeddings (hence tied similarity) whose
physical order is the reverse of `chunk_id` order. -/
def tieRowB : Row :=
  ⟨"b-1", "M2", 1, some "Title two", some "Office", some "Term",
   "beta", 4, 4, none, [1, 0], 0⟩

def tieRowA : Row :=
  ⟨"a-1", "M1", 1, some "Title one", some "Retail", some "Term",
   "alpha", 5, 3, none, [1, 0], 0⟩

/-! # Theorems -/

/-! ### Whitespace bookkeeping for the chunker proofs -/

theorem removeWS_append (a b : List Char) :
    removeWS (a ++ b) = removeWS a ++ removeWS b :=
  List.filter_append a b

theorem removeWS_dropWhile (l : List Char) :
    removeWS (l.dropWhile isWS) = removeWS l := by
  induction l with
  | nil => rfl
  | cons c t ih =>
    by_cases h : isWS c
    · simpa [removeWS, List.dropWhile_cons, List.filter_cons, h] using ih
    · simp [removeWS, List.dropWhile_cons, List.filter_cons, h]

theorem removeWS_reverse (l : List Char) :
    removeWS l.reverse = (removeWS l).reverse :=
  List.filter_reverse _ l

theorem removeWS_stripWS (l : List Char) :
    removeWS (stripWS l) = removeWS l := by
  unfold stripWS
  rw [removeWS_reverse, removeWS_dropWhile, removeWS_reverse, removeWS_dropWhile,
    List.reverse_reverse]

theorem removeWS_space_cons (l : List Char) : removeWS (' ' :: l) = removeWS l := by
  simp [removeWS, List.filter_cons, isWS]

/-- The accumulation loop never loses or duplicates sentence text: modulo
whitespace, the concatenation of the produced chunks is the pending buffer
plus all remaining (period-restored) sentences. -/
theorem chunkLoop_flatten (maxLength : Nat) (ss : List (List Char)) :
    ∀ chunks current,
      removeWS (chunkLoop maxLength chunks current ss).flatten
        = removeWS (chunks.flatten ++ current ++ (ss.map addPeriod).flatten) := by
  induction ss with
  | nil =>
    intro chunks current
    by_cases hc : current.isEmpty
    · have : current = [] := List.isEmpty_iff.mp hc
      simp [chunkLoop, hc, this]
    · simp [chunkLoop, hc, removeWS_append, removeWS_stripWS]
  | cons s rest ih =>
    intro chunks current
    by_cases h : current.length + (addPeriod s).length < maxLength
    · rw [show chunkLoop maxLength chunks current (s :: rest)
            = chunkLoop maxLength chunks (current ++ addPeriod s ++ [' ']) rest from by
          simp [chunkLoop, h]]
      rw [ih]
      simp [removeWS_append, removeWS_space_cons, List.append_assoc]
    · by_cases hc : current.isEmpty
      · have hcn : current = [] := List.isEmpty_iff.mp hc
        rw [show chunkLoop maxLength chunks current (s :: rest)
              = chunkLoop maxLength chunks (addPeriod s ++ [' ']) rest from by
            simp [chunkLoop, h, hc]]
        rw [ih]
        simp [removeWS_append, removeWS_space_cons, hcn, List.append_assoc]
      · rw [show chunkLoop maxLength chunks current (s :: rest)
              = chunkLoop maxLength (chunks ++ [stripWS current])
                  (addPeriod s ++ [' ']) rest from by
            simp [chunkLoop, h, hc]]
        rw [ih]
        simp [removeWS_append, removeWS_stripWS, removeWS_space_cons, List.append_assoc]

/-- C8: for every text long enough to be segmented, concatenating the chunks
produced by `chunk_text` reconstructs, up to whitespace, exactly the
sentences of the original text (split on `". "`, trailing period restored):
none dropped, none duplicated. -/
theorem chunk_text_reconstructs_sentences (text : List Char) (max_length : Nat)
    (h : max_length < text.length) :
    removeWS (chunk_text text max_length).flatten
      = removeWS ((splitDotSpace text).map addPeriod).flatten := by
  have ht : ¬ (text.isEmpty = true) := by
    cases text with
    | nil => simp at h
    | cons c t => simp
  have hl : ¬ (text.length ≤ max_length) := by omega
  unfold chunk_text
  rw [if_neg ht, if_neg hl, chunkLoop_flatten]
  simp

/-- Witness for C8 at the concrete text "First one. Second two. Third."
with maximum chunk length 12. -/
theorem chunk_text_reconstructs_sentences_witness :
    removeWS (chunk_text "First one. Second two. Third.".toList 12).flatten
      = removeWS ((splitDotSpace "First one. Second two. Third.".toList).map
          addPeriod).flatten :=
  chunk_text_reconstructs_sentences _ 12 (by decide)

/-- C9: `chunk_text` returns the empty sequence on empty input, and returns
the unmodified singleton `[text]` whenever the non-empty input already fits
within `max_length`. -/
theorem chunk_text_short_input (text : List Char) (max_length : Nat) :
    (text = [] → chunk_text text max_length = [])
    ∧ (text ≠ [] → text.length ≤ max_length → chunk_text text max_length = [text]) := by
  constructor
  · intro h
    subst h
    rfl
  · intro h1 h2
    have ht : ¬ (text.isEmpty = true) := by
      simpa [List.isEmpty_iff] using h1
    unfold chunk_text
    rw [if_neg ht, if_pos h2]

/-- Witness for C9: the empty text and the three-character text "abc" with
maximum length 5. -/
theorem chunk_text_short_input_witness :
    chunk_text [] 5 = [] ∧ chunk_text "abc".toList 5 = ["abc".toList] :=
  ⟨(chunk_text_short_input [] 5).1 rfl,
   (chunk_text_short_input "abc".toList 5).2 (by decide) (by decide)⟩

/-! ### Semantic search: ranking (C3) and dimension mismatch (C4) -/

/-- C3 (amended): the sequence returned by `semantic_search` is ordered by
cosine similarity (`1 − distance`) in non-increasing order.  No `chunk_id`
tie-break exists in the query, so nothing more is guaranteed for ties. -/
theorem semantic_search_similarity_nonincreasing (dist : List ℚ → List ℚ → ℚ)
    (conn : Bool) (rows : List Row) (q : List ℚ) (limit : Nat)
    (score_filter : Option Int) (borrower_filter : Option String) :
    (semantic_search dist conn rows q limit score_filter borrower_filter).Pairwise
      (fun a b => b.similarity ≤ a.similarity) := by
  have key : ∀ l : List Row,
      ((((l.insertionSort (rowLE dist q)).take limit).map
        (toSearchResult dist q))).Pairwise (fun a b => b.similarity ≤ a.similarity) := by
    intro l
    haveI : IsTotal Row (rowLE dist q) := ⟨fun a b => le_total _ _⟩
    haveI : IsTrans Row (rowLE dist q) := ⟨fun a b c hab hbc => le_trans hab hbc⟩
    have hs : List.Pairwise (rowLE dist q) (l.insertionSort (rowLE dist q)) :=
      List.sorted_insertionSort _ l
    have hts := hs.sublist (List.take_sublist limit _)
    exact List.pairwise_map.mpr (hts.imp (fun hab => sub_le_sub_left hab 1))
  cases conn with
  | false => simp [semantic_search]
  | true =>
    unfold semantic_search semantic_search_exec
    by_cases hmix : (rows.filter (matchesFilters score_filter borrower_filter)).any
        (fun r => r.embedding.length != q.length)
    · simp [hmix]
    · simpa [hmix] using key (rows.filter (matchesFilters score_filter borrower_filter))

/-- C3 counterexample: with two stored rows `tieRowB`, `tieRowA` carrying the
same embedding, a search returns them tied in similarity but in physical
order `["b-1", "a-1"]`, which is strictly descending by `chunk_id` —
`semantic_search` has no `chunk_id` tie-break, so the claimed deterministic
ascending order on ties does not hold. -/
theorem semantic_search_no_tiebreak_cex :
    semantic_search cosineDistUnit true [tieRowB, tieRowA] [1, 0] 5 none none
        = [toSearchResult cosineDistUnit [1, 0] tieRowB,
           toSearchResult cosineDistUnit [1, 0] tieRowA]
    ∧ (toSearchResult cosineDistUnit [1, 0] tieRowB).similarity
        = (toSearchResult cosineDistUnit [1, 0] tieRowA).similarity
    ∧ (toSearchResult cosineDistUnit [1, 0] tieRowB).chunk_id = "b-1"
    ∧ (toSearchResult cosineDistUnit [1, 0] tieRowA).chunk_id = "a-1"
    ∧ strLtB "a-1" "b-1" = true := by
  refine ⟨?_, rfl, rfl, rfl, by decide⟩
  unfold semantic_search semantic_search_exec
  simp [tieRowB, tieRowA, matchesFilters, rowLE]

/-- C4 (amended): when the query vector's dimension differs from that of a
stored (and filter-retained) embedding, the underlying query raises — but
`semantic_search` catches the error and returns the empty list, so the caller
sees a silently degraded empty result, not a fatal error. -/
theorem semantic_search_dim_mismatch_caught (dist : List ℚ → List ℚ → ℚ)
    (rows : List Row) (q : List ℚ) (limit : Nat) (score_filter : Option Int)
    (borrower_filter : Option String)
    (h : (rows.filter (matchesFilters score_filter borrower_filter)).any
        (fun r => r.embedding.length != q.length) = true) :
    semantic_search_exec dist rows q limit score_filter borrower_filter
        = Except.error "different vector dimensions"
    ∧ semantic_search dist true rows q limit score_filter borrower_filter = [] := by
  constructor
  · unfold semantic_search_exec
    simp [h]
  · unfold semantic_search semantic_search_exec
    simp [h]

/-- Witness for C4 (amended) at a store holding one 2-dimensional row and a
3-dimensional query. -/
theorem semantic_search_dim_mismatch_caught_witness :
    semantic_search cosineDistUnit true [tieRowB] [1, 0, 0] 5 none none = [] :=
  (semantic_search_dim_mismatch_caught cosineDistUnit [tieRowB] [1, 0, 0] 5 none none
    (by decide)).2

/-- C4 counterexample: a dimension-mismatched query against a non-empty store
returns the normal value `[]` — indistinguishable from "no results" — rather
than failing visibly, refuting the claim that the mismatch is surfaced to the
caller as a fatal configuration error. -/
theorem semantic_search_dim_mismatch_silent_cex :
    semantic_search cosineDistUnit true [tieRowB, tieRowA] [1, 0, 0] 5 none none = [] := by
  unfold semantic_search semantic_search_exec
  simp [tieRowB, tieRowA, matchesFilters]

/-! ### Insert: transactional batching (C2, C7, C10) -/

/-- Any failing batch aborts the whole loop. -/
theorem insertLoop_none_of_fails (now : Nat) (fails : Nat → Bool) :
    ∀ (bs : List (List Record)) (i0 total : Nat) (pending : List Row),
      (∃ j, j < bs.length ∧ fails (i0 + j) = true) →
      insertLoop now fails i0 total pending bs = none := by
  intro bs
  induction bs with
  | nil =>
    intro i0 total pending h
    obtain ⟨j, hj, _⟩ := h
    simp at hj
  | cons b tl ih =>
    intro i0 total pending h
    obtain ⟨j, hj, hf⟩ := h
    by_cases h0 : fails i0
    · simp [insertLoop, h0]
    · have hj0 : j ≠ 0 := by
        intro e
        subst e
        simp at hf
        exact h0 (by simpa using hf)
      obtain ⟨k, rfl⟩ := Nat.exists_eq_succ_of_ne_zero hj0
      simp only [insertLoop, h0, if_false, Bool.false_eq_true]
      apply ih
      refine ⟨k, by simpa using hj, ?_⟩
      have : i0 + 1 + k = i0 + (k + 1) := by omega
      rw [this]
      exact hf

/-- When no batch fails, the loop applies every batch in order and counts
every submitted record. -/
theorem insertLoop_some_of_ok (now : Nat) (fails : Nat → Bool) :
    ∀ (bs : List (List Record)) (i0 total : Nat) (pending : List Row),
      (∀ j, j < bs.length → fails (i0 + j) = false) →
      insertLoop now fails i0 total pending bs
        = some (bs.foldl (applyBatch now) pending, total + (bs.map List.length).sum) := by
  intro bs
  induction bs with
  | nil =>
    intro i0 total pending _
    simp [insertLoop]
  | cons b tl ih =>
    intro i0 total pending h
    have h0 : fails i0 = false := by simpa using h 0 (by simp)
    simp only [insertLoop, h0, if_false, Bool.false_eq_true]
    rw [ih (i0 + 1) (total + b.length) (applyBatch now pending b) ?_]
    · simp [List.foldl_cons, List.map_cons, List.sum_cons]
      omega
    · intro j hj
      have : i0 + 1 + j = i0 + (j + 1) := by omega
      rw [this]
      exact h (j + 1) (by simpa using hj)

/-- Batching loses no record: flattening the batches restores the submitted
list. -/
theorem toBatchesGo_flatten (batch_size : Nat) :
    ∀ (l acc : List Record),
      (toBatchesGo batch_size l acc).flatten = acc.reverse ++ l := by
  intro l
  induction l with
  | nil =>
    intro acc
    by_cases h : acc.isEmpty
    · have : acc = [] := List.isEmpty_iff.mp h
      simp [toBatchesGo, h, this]
    · simp [toBatchesGo, h]
  | cons x xs ih =>
    intro acc
    by_cases h : (x :: acc).length = batch_size
    · simp [toBatchesGo, h, ih]
    · have h' : ¬ (acc.length + 1 = batch_size) := by simpa using h
      simp [toBatchesGo, h', ih, List.reverse_cons, List.append_assoc]

theorem toBatches_flatten (batch_size : Nat) (records : List Record) :
    (toBatches batch_size records).flatten = records := by
  unfold toBatches
  simp [toBatchesGo_flatten]

/-- C10: `insert_chunks` runs all batches inside one transaction committed
only after the last batch: if any batch raises, the transaction is rolled
back — the committed store state is exactly the pre-call state — and the
call returns `0`. -/
theorem insert_chunks_transactional_rollback (rows : List Row) (records : List Record)
    (batch_size : Nat) (fails : Nat → Bool) (now : Nat) (i : Nat)
    (hi : i < (toBatches batch_size records).length) (hf : fails i = true) :
    insert_chunks true rows records batch_size fails now = (rows, 0) := by
  unfold insert_chunks
  rw [insertLoop_none_of_fails now fails (toBatches batch_size records) 0 0 rows
    ⟨i, hi, by simpa using hf⟩]
  rfl

/-- Witness for C10: two single-record batches, the second batch fails; the
store stays empty and the returned count is `0`. -/
theorem insert_chunks_transactional_rollback_witness :
    insert_chunks true [] [exRec1, exRec2] 1 (fun i => decide (i = 1)) 7 = ([], 0) :=
  insert_chunks_transactional_rollback [] [exRec1, exRec2] 1 (fun i => decide (i = 1)) 7 1
    (by decide) (by decide)

/-- C2 (amended): a failing batch does not merely skip that batch — it aborts
the entire call: the transaction is rolled back (no rows from any batch
persist) and `0` is returned instead of a partial count.  Only when every
batch succeeds does the call commit, returning the full submitted count. -/
theorem insert_chunks_abort_or_full (rows : List Row) (records : List Record)
    (batch_size : Nat) (fails : Nat → Bool) (now : Nat) :
    ((∃ i, i < (toBatches batch_size records).length ∧ fails i = true) →
      insert_chunks true rows records batch_size fails now = (rows, 0))
    ∧ ((∀ i, i < (toBatches batch_size records).length → fails i = false) →
      insert_chunks true rows records batch_size fails now
        = ((toBatches batch_size records).foldl (applyBatch now) rows, records.length)) := by
  constructor
  · intro h
    obtain ⟨i, hi, hf⟩ := h
    exact insert_chunks_transactional_rollback rows records batch_size fails now i hi hf
  · intro h
    unfold insert_chunks
    rw [insertLoop_some_of_ok now fails (toBatches batch_size records) 0 0 rows
      (by simpa using h)]
    have hsum : ((toBatches batch_size records).map List.length).sum = records.length := by
      rw [← List.length_flatten, toBatches_flatten]
    simp [hsum]

/-- Witness for C2 (amended), success half: one batch of one record commits
and reports count `1`. -/
theorem insert_chunks_abort_or_full_witness :
    insert_chunks true [] [exRec1] 100 (fun _ => false) 7 = ([recordToRow 7 exRec1], 1) := by
  rw [(insert_chunks_abort_or_full [] [exRec1] 100 (fun _ => false) 7).2 (fun i _ => rfl)]
  rfl

/-- C2 counterexample: with two single-record batches, failure of either
batch yields `([], 0)`: nothing from the other (successful) batch persists
and the returned count is `0`, not the partial count `1` — the call is
aborted rather than continuing with remaining batches. -/
theorem insert_chunks_no_skip_cex :
    insert_chunks true [] [exRec1, exRec2] 1 (fun i => decide (i = 0)) 7 = ([], 0)
    ∧ insert_chunks true [] [exRec2, exRec1] 1 (fun i => decide (i = 1)) 7 = ([], 0) := by
  constructor
  · unfold insert_chunks toBatches
    simp [toBatchesGo, insertLoop]
  · unfold insert_chunks toBatches
    simp [toBatchesGo, insertLoop, applyBatch, upsertRecord, exRec1, exRec2]

/-- C7: re-inserting a record whose `chunk_id` already exists in the store
never increases the total row count: the conflicting row has only its
`chunk_text` and `embedding` columns replaced, and every column among
`chunk_id`, `original_id`, `chunk_index`, `title`, `borrower`, `loan_type`,
`score`, `recommendation`, `created_at` keeps the value set at first
insertion (for every row of the store). -/
theorem insert_chunks_upsert_preserves (rows : List Row) (r : Record) (now : Nat)
    (h : rows.any (fun row => row.chunk_id == r.chunk_id) = true) :
    (insert_chunks true rows [r] 100 (fun _ => false) now).1
        = rows.map (fun row =>
            if row.chunk_id == r.chunk_id then
              { row with chunk_text := r.chunk_text, embedding := r.embedding }
            else row)
    ∧ (insert_chunks true rows [r] 100 (fun _ => false) now).1.length = rows.length
    ∧ (insert_chunks true rows [r] 100 (fun _ => false) now).1.map frozenCols
        = rows.map frozenCols := by
  have hmain : (insert_chunks true rows [r] 100 (fun _ => false) now).1
      = rows.map (fun row =>
          if row.chunk_id == r.chunk_id then
            { row with chunk_text := r.chunk_text, embedding := r.embedding }
          else row) := by
    unfold insert_chunks
    rw [insertLoop_some_of_ok now (fun _ => false) (toBatches 100 [r]) 0 0 rows
      (fun _ _ => rfl)]
    simp only [if_true]
    show (toBatches 100 [r]).foldl (applyBatch now) rows = _
    have hb : toBatches 100 [r] = [[r]] := rfl
    rw [hb]
    show upsertRecord now rows r = _
    unfold upsertRecord
    rw [if_pos h]
  refine ⟨hmain, ?_, ?_⟩
  · rw [hmain, List.length_map]
  · rw [hmain, List.map_map]
    apply List.map_congr_left
    intro row _
    dsimp only [Function.comp, frozenCols]
    split <;> rfl

/-- Witness for C7: a one-row store re-ingested with corrected text keeps
row count 1. -/
theorem insert_chunks_upsert_preserves_witness :
    (insert_chunks true [recordToRow 0 exRec1] [exRec1b] 100 (fun _ => false) 5).1.length
      = 1 := by
  rw [(insert_chunks_upsert_preserves [recordToRow 0 exRec1] exRec1b 5 (by decide)).2.1]
  rfl

/-! ### Query construction (C5) -/

theorem bucket_mem_dscr (d : ℚ) : dscrBucket d ∈ dscrPhraseList := by
  unfold dscrBucket dscrPhraseList
  split_ifs <;> simp

theorem bucket_mem_current (c : ℚ) : currentRatioBucket c ∈ currentPhraseList := by
  unfold currentRatioBucket currentPhraseList
  split_ifs <;> simp

theorem bucket_mem_leverage (l : ℚ) : leverageBucket l ∈ leveragePhraseList := by
  unfold leverageBucket leveragePhraseList
  split_ifs <;> simp

/-- The nine query phrases are pairwise distinct across the three ratio
components. -/
theorem phrase_lists_disjoint :
    (∀ p ∈ dscrPhraseList, p ∉ currentPhraseList ∧ p ∉ leveragePhraseList)
    ∧ (∀ p ∈ currentPhraseList, p ∉ dscrPhraseList ∧ p ∉ leveragePhraseList)
    ∧ (∀ p ∈ leveragePhraseList, p ∉ dscrPhraseList ∧ p ∉ currentPhraseList) := by
  decide

theorem count_ratioPhrase_self (bucket : ℚ → String) (d : ℚ) (hd : ¬ d = 0) :
    (ratioPhrase bucket (some d)).count (bucket d) = 1 := by
  unfold ratioPhrase
  simp [hd]

theorem count_ratioPhrase_other (bucket : ℚ → String) (d : ℚ) (p : String)
    (hp : p ≠ bucket d) : (ratioPhrase bucket (some d)).count p = 0 := by
  unfold ratioPhrase
  by_cases hx : d = 0
  · simp [hx]
  · simp [hx, hp]

theorem count_ratioPhrase_notin (bucket : ℚ → String) (v : Option ℚ) (p : String)
    (h : ∀ x : ℚ, p ≠ bucket x) : (ratioPhrase bucket v).count p = 0 := by
  cases v with
  | none => rfl
  | some x =>
    unfold ratioPhrase
    by_cases hx : x = 0
    · simp [hx]
    · simp [hx, h x]

theorem count_ratioPhrase_avoid (bucket : ℚ → String) (L : List String)
    (bmem : ∀ x : ℚ, bucket x ∈ L) (v : Option ℚ) (p : String) (hp : p ∉ L) :
    (ratioPhrase bucket v).count p = 0 :=
  count_ratioPhrase_notin bucket v p (fun x e => hp (by rw [e]; exact bmem x))

theorem count_queryTail (r : Ratios) (p : String) :
    (queryTail r).count p
      = (ratioPhrase dscrBucket r.dscr).count p
        + (ratioPhrase currentRatioBucket r.current_ratio).count p
        + (ratioPhrase leverageBucket r.leverage_ratio).count p := by
  unfold queryTail
  simp [List.count_append, Nat.add_assoc]

/-- C5 (amended): the query is the industry descriptor followed by the ratio
phrases.  When a ratio is present with a non-zero value, exactly one phrase
of its family appears — the bucket phrase of the source thresholds (DSCR:
`≥1.5` strong / `≥1.25` adequate / else weak coverage; current ratio: `≥2.0`
strong / `≥1.5` adequate liquidity / else concerns; leverage: `≤0.3` low /
`≤0.5` moderate / else high) — and no other phrase of that family does.
When a ratio is absent **or equal to zero** (Python truthiness of `0.0`),
its family contributes no phrase at all. -/
theorem build_query_buckets (industry : Option String) (r : Ratios) :
    buildQueryParts industry r = (industry.getD "business") :: queryTail r
    ∧ (∀ d : ℚ, r.dscr = some d → ¬ d = 0 →
        (queryTail r).count (dscrBucket d) = 1
        ∧ ∀ p ∈ dscrPhraseList, p ≠ dscrBucket d → (queryTail r).count p = 0)
    ∧ ((r.dscr = none ∨ r.dscr = some 0) →
        ∀ p ∈ dscrPhraseList, (queryTail r).count p = 0)
    ∧ (∀ c : ℚ, r.current_ratio = some c → ¬ c = 0 →
        (queryTail r).count (currentRatioBucket c) = 1
        ∧ ∀ p ∈ currentPhraseList, p ≠ currentRatioBucket c → (queryTail r).count p = 0)
    ∧ ((r.current_ratio = none ∨ r.current_ratio = some 0) →
        ∀ p ∈ currentPhraseList, (queryTail r).count p = 0)
    ∧ (∀ l : ℚ, r.leverage_ratio = some l → ¬ l = 0 →
        (queryTail r).count (leverageBucket l) = 1
        ∧ ∀ p ∈ leveragePhraseList, p ≠ leverageBucket l → (queryTail r).count p = 0)
    ∧ ((r.leverage_ratio = none ∨ r.leverage_ratio = some 0) →
        ∀ p ∈ leveragePhraseList, (queryTail r).count p = 0) := by
  have disj := phrase_lists_disjoint
  have avoidD : ∀ p, p ∉ dscrPhraseList → (ratioPhrase dscrBucket r.dscr).count p = 0 :=
    fun p hp => count_ratioPhrase_avoid _ _ bucket_mem_dscr _ p hp
  have avoidC : ∀ p, p ∉ currentPhraseList →
      (ratioPhrase currentRatioBucket r.current_ratio).count p = 0 :=
    fun p hp => count_ratioPhrase_avoid _ _ bucket_mem_current _ p hp
  have avoidL : ∀ p, p ∉ leveragePhraseList →
      (ratioPhrase leverageBucket r.leverage_ratio).count p = 0 :=
    fun p hp => count_ratioPhrase_avoid _ _ bucket_mem_leverage _ p hp
  have zeroCount : ∀ (bucket : ℚ → String) (v : Option ℚ) (p : String),
      (v = none ∨ v = some 0) → (ratioPhrase bucket v).count p = 0 := by
    intro bucket v p hv
    rcases hv with rfl | rfl
    · rfl
    · simp [ratioPhrase]
  refine ⟨rfl, ?_, ?_, ?_, ?_, ?_, ?_⟩
  · intro d hd hd0
    have hmem := bucket_mem_dscr d
    constructor
    · rw [count_queryTail, hd, count_ratioPhrase_self _ _ hd0,
        avoidC _ (disj.1 _ hmem).1, avoidL _ (disj.1 _ hmem).2]
    · intro p hpl hpne
      rw [count_queryTail, hd, count_ratioPhrase_other _ _ _ hpne,
        avoidC _ (disj.1 _ hpl).1, avoidL _ (disj.1 _ hpl).2]
  · intro hz p hpl
    rw [count_queryTail, zeroCount _ _ _ hz,
      avoidC _ (disj.1 _ hpl).1, avoidL _ (disj.1 _ hpl).2]
  · intro c hc hc0
    have hmem := bucket_mem_current c
    constructor
    · rw [count_queryTail, hc, count_ratioPhrase_self _ _ hc0,
        avoidD _ (disj.2.1 _ hmem).1, avoidL _ (disj.2.1 _ hmem).2]
    · intro p hpl hpne
      rw [count_queryTail, hc, count_ratioPhrase_other _ _ _ hpne,
        avoidD _ (disj.2.1 _ hpl).1, avoidL _ (disj.2.1 _ hpl).2]
  · intro hz p hpl
    rw [count_queryTail, zeroCount _ _ _ hz,
      avoidD _ (disj.2.1 _ hpl).1, avoidL _ (disj.2.1 _ hpl).2]
  · intro l hl hl0
    have hmem := bucket_mem_leverage l
    constructor
    · rw [count_queryTail, hl, count_ratioPhrase_self _ _ hl0,
        avoidD _ (disj.2.2 _ hmem).1, avoidC _ (disj.2.2 _ hmem).2]
    · intro p hpl hpne
      rw [count_queryTail, hl, count_ratioPhrase_other _ _ _ hpne,
        avoidD _ (disj.2.2 _ hpl).1, avoidC _ (disj.2.2 _ hpl).2]
  · intro hz p hpl
    rw [count_queryTail, zeroCount _ _ _ hz,
      avoidD _ (disj.2.2 _ hpl).1, avoidC _ (disj.2.2 _ hpl).2]

/-- Witness for C5 (amended): the spec's own scenario values
`dscr = 1.6`, `current_ratio = 2.2`, `leverage_ratio = 0.2`: the strong-DSCR
phrase appears exactly once. -/
theorem build_query_buckets_witness :
    (queryTail ⟨some (8/5), some (11/5), some (1/5)⟩).count
      "strong debt service coverage" = 1 := by
  have h := ((build_query_buckets (some "Retail Bakery")
    ⟨some (8/5), some (11/5), some (1/5)⟩).2.1 (8/5) rfl (by norm_num)).1
  rw [show dscrBucket (8/5) = "strong debt service coverage" from by
    unfold dscrBucket; rw [if_pos (by norm_num)]] at h
  exact h

/-- C5 counterexample: `dscr = 0.0` is *present* in the input, yet — because
the source guards each phrase with Python truthiness (`if dscr:`) — the query
contains no debt-service-coverage phrase at all, contradicting the claim that
any present `dscr` yields exactly one such phrase ("weak" for values below
1.25) and that only absent ratios are omitted. -/
theorem build_query_zero_dscr_cex :
    buildQueryParts (some "business") ⟨some 0, none, none⟩ = ["business"]
    ∧ ∀ p ∈ dscrPhraseList, p ∉ buildQueryParts (some "business") ⟨some 0, none, none⟩ := by
  have h : buildQueryParts (some "business") ⟨some 0, none, none⟩ = ["business"] := by
    simp [buildQueryParts, ratioPhrase]
  refine ⟨h, ?_⟩
  intro p hp
  rw [h]
  simp only [dscrPhraseList, List.mem_cons, List.not_mem_nil, or_false] at hp
  rcases hp with rfl | rfl | rfl <;> decide

/-! ### Threshold retrieval (C6) -/

/-- C6: on a connected store, `retrieve_context` requests exactly `2 × limit`
candidates from the vector store, keeps only results with similarity at least
the threshold, returns at most `limit` of them, and — when at most `limit`
survivors exist — returns exactly the survivors, with no retry or widened
oversampling. -/
theorem retrieve_context_oversample_filter_truncate (dist : List ℚ → List ℚ → ℚ)
    (enc : String → List ℚ) (dim : Nat) (conn : Bool) (rows : List Row)
    (query : String) (limit : Nat) (score_filter : Option Int)
    (borrower_filter : Option String) (t : ℚ) (hconn : conn = true) :
    retrieve_context dist enc dim conn rows query limit score_filter borrower_filter t
        = ((semantic_search dist true rows (embed_query enc dim query) (limit * 2)
            score_filter borrower_filter).filter
              (fun s => decide (t ≤ s.similarity))).take limit
    ∧ (∀ s ∈ retrieve_context dist enc dim conn rows query limit score_filter
        borrower_filter t, t ≤ s.similarity)
    ∧ (retrieve_context dist enc dim conn rows query limit score_filter
        borrower_filter t).length ≤ limit
    ∧ (((semantic_search dist true rows (embed_query enc dim query) (limit * 2)
          score_filter borrower_filter).filter
            (fun s => decide (t ≤ s.similarity))).length ≤ limit →
        retrieve_context dist enc dim conn rows query limit score_filter borrower_filter t
          = (semantic_search dist true rows (embed_query enc dim query) (limit * 2)
              score_filter borrower_filter).filter (fun s => decide (t ≤ s.similarity))) := by
  subst hconn
  have h1 : retrieve_context dist enc dim true rows query limit score_filter
      borrower_filter t
      = ((semantic_search dist true rows (embed_query enc dim query) (limit * 2)
          score_filter borrower_filter).filter
            (fun s => decide (t ≤ s.similarity))).take limit := rfl
  refine ⟨h1, ?_, ?_, ?_⟩
  · intro s hs
    rw [h1] at hs
    have hs' := List.mem_of_mem_take hs
    exact of_decide_eq_true (List.mem_filter.mp hs').2
  · rw [h1, List.length_take]
    exact Nat.min_le_left _ _
  · intro hlen
    rw [h1]
    exact List.take_of_length_le hlen

/-- Witness for C6 on a connected empty store. -/
theorem retrieve_context_oversample_filter_truncate_witness :
    (retrieve_context cosineDistUnit (fun _ => [1, 0]) 2 true [] "query" 3 none none
      (1/2)).length ≤ 3 :=
  (retrieve_context_oversample_filter_truncate cosineDistUnit (fun _ => [1, 0]) 2 true []
    "query" 3 none none (1/2) rfl).2.2.1

/-! ### The Retriever's outward contract (C1) -/

theorem formatPart_length (include_metadata : Bool) (i : Nat) (c : SearchResult) :
    12 ≤ (formatPart include_metadata i c).length := by
  unfold formatPart
  simp only [String.length_append]
  have h12 : ("--- Example " : String).length = 12 := rfl
  omega

theorem joinWith_newline_length (p : String) (ps : List String) :
    p.length ≤ (joinWith "\n" (p :: ps)).length := by
  cases ps with
  | nil => simp [joinWith]
  | cons q qs =>
    show p.length ≤ (p ++ "\n" ++ joinWith "\n" (q :: qs)).length
    simp only [String.length_append]
    omega

/-- The function `format_context_for_llm` always yields a non-empty string: the fixed
sentinel for an empty result set, a block starting with `"--- Example 1"`
otherwise. -/
theorem format_context_ne_empty (retrieved_chunks : List SearchResult)
    (include_metadata : Bool) :
    format_context_for_llm retrieved_chunks include_metadata ≠ "" := by
  cases retrieved_chunks with
  | nil =>
    show ("No relevant examples found in knowledge base." : String) ≠ ""
    decide
  | cons c cs =>
    show joinWith "\n" (formatPart include_metadata 1 c :: formatParts include_metadata 2 cs)
        ≠ ""
    intro he
    have h1 := joinWith_newline_length (formatPart include_metadata 1 c)
      (formatParts include_metadata 2 cs)
    have h2 := formatPart_length include_metadata 1 c
    rw [he] at h1
    simp at h1
    omega

/-- C1: for every input, `retrieve_similar_memos` returns (it is a total
function of its inputs — every store/search failure inside is caught and
mapped to the empty result list) and its value is a non-empty string: the
formatted numbered-example block when results survive filtering, and exactly
the sentinel `"No relevant examples found in knowledge base."` otherwise —
in particular whenever the store is disconnected. -/
theorem retrieve_similar_memos_total_contract (dist : List ℚ → List ℚ → ℚ)
    (enc : String → List ℚ) (dim : Nat) (conn : Bool) (rows : List Row)
    (financial_data : List (String × String)) (ratios : Ratios)
    (industry : Option String) (limit : Nat) :
    retrieve_similar_memos dist enc dim conn rows financial_data ratios industry limit
        = format_context_for_llm
            (retrieve_context dist enc dim conn rows
              (joinWith " " (buildQueryParts industry ratios)) limit none none (2/5)) true
    ∧ retrieve_similar_memos dist enc dim conn rows financial_data ratios industry limit ≠ ""
    ∧ (conn = false →
        retrieve_similar_memos dist enc dim conn rows financial_data ratios industry limit
          = "No relevant examples found in knowledge base.")
    ∧ (retrieve_context dist enc dim conn rows
          (joinWith " " (buildQueryParts industry ratios)) limit none none (2/5) = [] →
        retrieve_similar_memos dist enc dim conn rows financial_data ratios industry limit
          = "No relevant examples found in knowledge base.")
    ∧ (retrieve_context dist enc dim conn rows
          (joinWith " " (buildQueryParts industry ratios)) limit none none (2/5) ≠ [] →
        retrieve_similar_memos dist enc dim conn rows financial_data ratios industry limit
          = joinWith "\n" (formatParts true 1
              (retrieve_context dist enc dim conn rows
                (joinWith " " (buildQueryParts industry ratios)) limit none none (2/5)))) := by
  refine ⟨rfl, format_context_ne_empty _ _, ?_, ?_, ?_⟩
  · intro hc
    subst hc
    rfl
  · intro he
    show format_context_for_llm _ true = _
    rw [he]
    rfl
  · intro hne
    show format_context_for_llm _ true = _
    unfold format_context_for_llm
    rw [if_neg (by simpa [List.isEmpty_iff] using hne)]

/-- Witness for C1: a disconnected store returns exactly the sentinel. -/
theorem retrieve_similar_memos_total_contract_witness :
    retrieve_similar_memos cosineDistUnit (fun _ => [1, 0]) 2 false [] []
      ⟨none, none, none⟩ none 3 = "No relevant examples found in knowledge base." :=
  (retrieve_similar_memos_total_contract cosineDistUnit (fun _ => [1, 0]) 2 false [] []
    ⟨none, none, none⟩ none 3).2.2.1 rfl

end CreditMemo
